import Mathlib

/-!
Verification development for the qwenchat2api proxy (Deno/TypeScript).

The embedding models, from the source:
  * the JSON values produced by JSON.parse, together with the JavaScript
    field-access, truthiness and string-template semantics the scripts use
    (integer JSON numbers only; none of the streams handled by the claims
    carry fractional numbers);
  * the v3.9 stream transformer createQwenToOpenAIStreamTransformer of
    src/main.ts (buffering, overflow discard, the two error paths, line
    splitting, per-frame translation with asset-URL deduplication, flush);
  * the v2.3 stream transformer of src/unnamed/part_000 (the think-tag
    wrapper logic);
  * the request transformation: chat-type classification, model-name
    stripping, thinking flag and feature_config, size-to-aspect-ratio
    mapping (src/main.ts), and the v2.3 includes-based classification
    (src/unnamed/part_000);
  * processMessagesForQwen and the upload call accounting
    (src/unnamed/part_000, src/upload.js), with the network modelled as an
    oracle giving the outcome of each successive call;
  * the chat middleware staged as the second document of src/Dockerfile:
    isChatType, isThinkingEnabled, and the cache-and-upload accounting of
    parserMessages, with CacheManager (img-caches.js) and sha256Encrypt
    (tools.js), which are not under src/, modelled from the spec as a
    lookup/insert map and an arbitrary deterministic fingerprint function;
  * the retry loops requestStsToken and uploadToOssWithSts of
    src/upload.js, with an oracle giving the outcome of each attempt.

Wall-clock data (the created timestamp, log output, retry sleeping) is not
part of any claim and is dropped; the delays the retry loops would sleep
are recorded as data instead.
-/

namespace QP

/-- JSON values as produced by JSON.parse. Numbers are restricted to
integers: no frame relevant to the claims carries a fractional number. -/
inductive JVal where
  | null
  | bool (b : Bool)
  | num (n : Int)
  | str (s : String)
  | arr (elems : List JVal)
  | obj (fields : List (String × JVal))

/-- JavaScript property access on a parsed JSON value: a missing field or a
non-object receiver gives undefined, modelled as none. JSON.parse keeps the
last of duplicate keys, hence the fold. -/
def JVal.getField (v : JVal) (k : String) : Option JVal :=
  match v with
  | .obj fields => fields.foldl (fun acc kv => if kv.1 = k then some kv.2 else acc) none
  | _ => none

/-- JavaScript truthiness of a parsed JSON value. -/
def JVal.truthy : JVal → Bool
  | .null => false
  | .bool b => b
  | .num n => n != 0
  | .str s => s ≠ ""
  | .arr _ => true
  | .obj _ => true

/-- JavaScript `a || b` over possibly-undefined values. -/
def jsOr (a b : Option JVal) : Option JVal :=
  match a with
  | some v => if v.truthy then some v else b
  | none => b

/-- JavaScript `a || dflt` where the default is a present value. -/
def jsOrD (a : Option JVal) (dflt : JVal) : JVal :=
  match a with
  | some v => if v.truthy then v else dflt
  | none => dflt

/-- Array.prototype.join with the comma separator. -/
def joinComma : List String → String
  | [] => ""
  | [x] => x
  | x :: xs => x ++ "," ++ joinComma xs

/-- One scalar array element under Array.prototype.toString: null gives "";
only one level of array nesting is modelled (the values the scripts
interpolate, request_id and data.details/code, are scalars in every
backend payload). -/
def jsElemToStr : JVal → String
  | .null => ""
  | .bool b => if b then "true" else "false"
  | .num n => toString n
  | .str s => s
  | .arr _ => ""
  | .obj _ => "[object Object]"

/-- JavaScript string conversion of a value, as used by template literals. -/
def jsValToStr : JVal → String
  | .null => "null"
  | .bool b => if b then "true" else "false"
  | .num n => toString n
  | .str s => s
  | .arr xs => joinComma (xs.map (fun x => match x with | .null => "" | v => jsElemToStr v))
  | .obj _ => "[object Object]"

/-- Template-literal interpolation of a possibly-undefined value. -/
def jsTemplate : Option JVal → String
  | none => "undefined"
  | some v => jsValToStr v

/-- Substring test on character lists (helper for String.prototype.includes). -/
def containsSubList (p : List Char) : List Char → Bool
  | [] => p.isEmpty
  | c :: cs => p.isPrefixOf (c :: cs) || containsSubList p cs

/-- String.prototype.includes. -/
def strIncludes (s pat : String) : Bool :=
  containsSubList pat.data s.data

/-- String.prototype.endsWith. -/
def strEndsWith (s suffix : String) : Bool :=
  suffix.data.isSuffixOf s.data

/-- String.prototype.startsWith (character-list based, so that concrete
runs reduce in the kernel). -/
def strStartsWith (s pre : String) : Bool :=
  pre.data.isPrefixOf s.data

/-- String.prototype.trim over the character list. -/
def trimChars (l : List Char) : List Char :=
  ((l.dropWhile Char.isWhitespace).reverse.dropWhile Char.isWhitespace).reverse

/-- String.prototype.trim. -/
def strTrim (s : String) : String :=
  String.mk (trimChars s.data)

/-- String.prototype.split with a non-empty separator, scanning left to
right without overlap. The fuel dominates the input length, so it never
runs out on the calls below. -/
def splitOnAuxF : Nat → List Char → List Char → List Char → List (List Char)
  | 0, _, _, acc => [acc.reverse]
  | _ + 1, _, [], acc => [acc.reverse]
  | fuel + 1, sep, c :: cs, acc =>
    if sep.isPrefixOf (c :: cs) then
      acc.reverse :: splitOnAuxF fuel sep ((c :: cs).drop sep.length) []
    else splitOnAuxF fuel sep cs (c :: acc)

/-- String.prototype.split. -/
def strSplitOn (s sep : String) : List String :=
  if sep = "" then [s]
  else (splitOnAuxF (s.data.length + 1) sep.data s.data []).map String.mk

/-! JSON.parse, as a fuelled recursive-descent parser over the character
list of the input; the whole input (up to trailing whitespace) must be
consumed. -/

def jsonWs (c : Char) : Bool :=
  c = ' ' ∨ c = '\t' ∨ c = '\n' ∨ c = '\r'

def skipWs : List Char → List Char
  | [] => []
  | c :: cs => if jsonWs c then skipWs cs else c :: cs

def hexVal (c : Char) : Option Nat :=
  if '0' ≤ c ∧ c ≤ '9' then some (c.toNat - 48)
  else if 'a' ≤ c ∧ c ≤ 'f' then some (c.toNat - 87)
  else if 'A' ≤ c ∧ c ≤ 'F' then some (c.toNat - 55)
  else none

/-- The body of a JSON string literal after the opening quote: returns the
decoded characters and the input after the closing quote. Raw control
characters are rejected, as JSON.parse rejects them. -/
def parseStrChars : Nat → List Char → Option (List Char × List Char)
  | 0, _ => none
  | _, [] => none
  | fuel + 1, c :: cs =>
    if c = '"' then some ([], cs)
    else if c = '\\' then
      match cs with
      | [] => none
      | e :: cs' =>
        let dec : Option (Char × List Char) :=
          if e = '"' then some ('"', cs')
          else if e = '\\' then some ('\\', cs')
          else if e = '/' then some ('/', cs')
          else if e = 'n' then some ('\n', cs')
          else if e = 't' then some ('\t', cs')
          else if e = 'r' then some ('\r', cs')
          else if e = 'b' then some ('\x08', cs')
          else if e = 'f' then some ('\x0c', cs')
          else if e = 'u' then
            match cs' with
            | h1 :: h2 :: h3 :: h4 :: cs'' =>
              match hexVal h1, hexVal h2, hexVal h3, hexVal h4 with
              | some a, some b, some c3, some d =>
                some (Char.ofNat (((a * 16 + b) * 16 + c3) * 16 + d), cs'')
              | _, _, _, _ => none
            | _ => none
          else none
        match dec with
        | some (d, rest) =>
          match parseStrChars fuel rest with
          | some (s, r) => some (d :: s, r)
          | none => none
        | none => none
    else if c.toNat < 32 then none
    else
      match parseStrChars fuel cs with
      | some (s, r) => some (c :: s, r)
      | none => none

def digitsToNat (ds : List Char) : Nat :=
  ds.foldl (fun a c => a * 10 + (c.toNat - 48)) 0

/-- A JSON number. Only integers are accepted: a fraction or exponent makes
the whole parse fail (no claim-relevant frame carries one). -/
def parseNum (cs : List Char) : Option (Int × List Char) :=
  let (neg, cs1) : Bool × List Char :=
    match cs with
    | '-' :: r => (true, r)
    | _ => (false, cs)
  let ds := cs1.takeWhile Char.isDigit
  let rest := cs1.dropWhile Char.isDigit
  if ds.isEmpty then none
  else if 1 < ds.length ∧ ds.head? = some '0' then none
  else
    let bad : Bool :=
      match rest with
      | c :: _ => c = '.' ∨ c = 'e' ∨ c = 'E'
      | [] => false
    if bad then none
    else
      let n : Int := Int.ofNat (digitsToNat ds)
      some (if neg then -n else n, rest)

mutual
def parseVal : Nat → List Char → Option (JVal × List Char)
  | 0, _ => none
  | fuel + 1, cs =>
    match skipWs cs with
    | [] => none
    | c :: rest =>
      if c = '"' then
        match parseStrChars (fuel + 1) rest with
        | some (s, r) => some (.str (String.mk s), r)
        | none => none
      else if c = '[' then
        match skipWs rest with
        | ']' :: r => some (.arr [], r)
        | other =>
          match parseElems fuel other with
          | some (xs, r) => some (.arr xs, r)
          | none => none
      else if c = '\x7b' then
        match skipWs rest with
        | '\x7d' :: r => some (.obj [], r)
        | other =>
          match parseFields fuel other with
          | some (fs, r) => some (.obj fs, r)
          | none => none
      else if c = 't' then
        match rest with
        | 'r' :: 'u' :: 'e' :: r => some (.bool true, r)
        | _ => none
      else if c = 'f' then
        match rest with
        | 'a' :: 'l' :: 's' :: 'e' :: r => some (.bool false, r)
        | _ => none
      else if c = 'n' then
        match rest with
        | 'u' :: 'l' :: 'l' :: r => some (.null, r)
        | _ => none
      else if c = '-' ∨ c.isDigit then
        match parseNum (c :: rest) with
        | some (n, r) => some (.num n, r)
        | none => none
      else none

def parseElems : Nat → List Char → Option (List JVal × List Char)
  | 0, _ => none
  | fuel + 1, cs =>
    match parseVal fuel cs with
    | none => none
    | some (v, r) =>
      match skipWs r with
      | ',' :: r' =>
        match parseElems fuel r' with
        | some (xs, r'') => some (v :: xs, r'')
        | none => none
      | ']' :: r' => some ([v], r')
      | _ => none

def parseFields : Nat → List Char → Option (List (String × JVal) × List Char)
  | 0, _ => none
  | fuel + 1, cs =>
    match skipWs cs with
    | '"' :: r =>
      match parseStrChars (fuel + 1) r with
      | none => none
      | some (k, r1) =>
        match skipWs r1 with
        | ':' :: r2 =>
          match parseVal fuel r2 with
          | none => none
          | some (v, r3) =>
            match skipWs r3 with
            | ',' :: r4 =>
              match parseFields fuel r4 with
              | some (fs, r5) => some ((String.mk k, v) :: fs, r5)
              | none => none
            | '\x7d' :: r4 => some ([(String.mk k, v)], r4)
            | _ => none
        | _ => none
    | _ => none
end

/-- JSON.parse: some value on success, none when parsing throws. -/
def parseJson (s : String) : Option JVal :=
  match parseVal (s.length + 1) s.data with
  | some (v, rest) => if (skipWs rest).isEmpty then some v else none
  | none => none

end QP

namespace QP

/-! The v3.9 stream transformer createQwenToOpenAIStreamTransformer of
src/main.ts. Input chunks are taken as the decoded text pieces; outputs are
the enqueued frames, with the JSON chunks kept structured (their
created timestamp, a wall-clock value, is dropped). -/

/-- Strict equality of a field against a string literal, as in
delta.phase === 'image_gen'. -/
def strFieldIs (v : JVal) (k val : String) : Bool :=
  match v.getField k with
  | some (.str s) => s = val
  | _ => false

/-- qwenChunk.success === false. -/
def isSuccessFalse (j : JVal) : Bool :=
  match j.getField "success" with
  | some (.bool false) => true
  | _ => false

/-- An output frame of the transformer: either a chat.completion.chunk
JSON frame (kept structured) or the literal terminal marker
data: [DONE]. -/
inductive OutEvent where
  | chunk (id : String) (object : String) (model : String)
      (content : String) (finish : Option String)
  | done
deriving DecidableEq

/-- An OpenAI chunk as every emission site of the v3.9 transformer builds
it: fixed id "chatcmpl-" ++ messageId, object chat.completion.chunk,
model qwen-proxy. -/
def mkChunk (msgId content : String) (finish : Option String) : OutEvent :=
  .chunk ("chatcmpl-" ++ msgId) "chat.completion.chunk" "qwen-proxy" content finish

/-- MAX_BUFFER_SIZE of the v3.9 transformer. -/
def MAX_BUFFER_SIZE : Nat := 100000

/-- The per-stream mutable state of the v3.9 transformer closure. The
logging-only counter rawDataCount is dropped. -/
structure TState where
  buffer : String
  errorDetected : Bool
  sentImageUrls : List String
  lastImageUrl : Option String
  imageGenPhaseStarted : Bool
  imageGenPhaseFinished : Bool
  chunkCount : Nat
deriving DecidableEq

/-- The state at stream open. -/
def initState : TState :=
  { buffer := "", errorDetected := false, sentImageUrls := [],
    lastImageUrl := none, imageGenPhaseStarted := false,
    imageGenPhaseFinished := false, chunkCount := 0 }

/-- Set.prototype.add on the sent-URL set (insertion order kept). -/
def setAdd (l : List String) (u : String) : List String :=
  if l.contains u then l else l ++ [u]

/-- The backend's detail/code, with the fallback default:
data?.details || data?.code || dflt, converted as a template literal. -/
def detailOrCode (j : JVal) (dflt : String) : String :=
  jsValToStr (jsOrD
    (jsOr ((j.getField "data").bind (fun d => d.getField "details"))
          ((j.getField "data").bind (fun d => d.getField "code")))
    (.str dflt))

/-- The error delta content of the buffer-level error path, ending in the
request identifier interpolated with JavaScript template semantics. -/
def bufferErrorContent (j : JVal) : String :=
  "Error: " ++ detailOrCode j "Unknown error from Qwen API" ++
    "\nRequest ID: " ++ jsTemplate (j.getField "request_id")

/-- The error delta content of the per-line error path. -/
def lineErrorContent (j : JVal) : String :=
  "Error: " ++ detailOrCode j "Stream error"

/-- The error delta content of the flush error path. -/
def flushErrorContent (j : JVal) : String :=
  "Error: " ++ detailOrCode j "Final buffer error"

/-- delta.content || "": string contents are kept, anything else (absent,
null, falsy) collapses to ""; non-string truthy contents, which the script
would crash on further down, are not modelled. -/
def contentOf (delta : JVal) : String :=
  match delta.getField "content" with
  | some (.str s) => s
  | _ => ""

/-- The asset-URL deduplication step shared by the image branches: a URL
not seen before is wrapped in markdown and recorded, a seen one collapses
to the empty content. -/
def dedupImage (s : TState) (url : String) : TState × String :=
  if s.sentImageUrls.contains url then (s, "")
  else
    let s' := { s with
      sentImageUrls := setAdd s.sentImageUrls url,
      lastImageUrl := some url }
    (s', "![Image](" ++ url ++ ")")

/-- else if (qwenChunk.result || qwenChunk.data): string data or a content
field; nothing in this branch sets isFinished. -/
def fallbackResultData (s : TState) (j : JVal) : TState × String × Bool :=
  match jsOr (j.getField "result") (j.getField "data") with
  | some dv =>
    if dv.truthy then
      match dv with
      | .str str => (s, str, false)
      | _ =>
        match dv.getField "content" with
        | some (.str c) => (s, c, false)
        | _ => (s, "", false)
    else (s, "", false)
  | none => (s, "", false)

/-- Lines 563 to 674 of src/main.ts: content extraction and finish
detection for one parsed chunk that is not an error chunk, giving the
updated state, the content and the isFinished flag. -/
def extractContent (s : TState) (j : JVal) : TState × String × Bool :=
  match j.getField "choices" with
  | some (.arr (choice :: _)) =>
    -- qwenChunk.choices && qwenChunk.choices.length > 0
    match jsOr (choice.getField "delta") (choice.getField "message") with
    | some delta =>
      if delta.truthy then
        let content0 := contentOf delta
        let (s1, content1) :=
          if strFieldIs delta "phase" "image_gen" then
            let sp := { s with imageGenPhaseStarted := true }
            if content0 != "" && strStartsWith content0 "https://" then
              dedupImage sp content0
            else (sp, content0)
          else if (strFieldIs delta "chat_type" "t2i" ||
                   strFieldIs delta "chat_type" "image_edit") &&
                  strStartsWith content0 "https://" then
            dedupImage s content0
          else (s, content0)
        let statusFin := strFieldIs delta "status" "finished"
        let s2 :=
          if statusFin && s1.imageGenPhaseStarted then
            { s1 with imageGenPhaseFinished := true }
          else s1
        let isFinished := statusFin || strFieldIs choice "finish_reason" "stop"
        (s2, content1, isFinished)
      else (s, "", false)
    | none => (s, "", false)
  | _ =>
    match j.getField "content" with
    | some (.str c) =>
      if c != "" then
        -- else if (qwenChunk.content)
        let (s1, content1) :=
          if strStartsWith c "https://" && strIncludes c "cdn.qwenlm.ai" then
            dedupImage s c
          else (s, c)
        let isFinished :=
          strFieldIs j "status" "finished" || strFieldIs j "finish_reason" "stop"
        (s1, content1, isFinished)
      else fallbackResultData s j
    | _ => fallbackResultData s j

/-- The body of the per-line try block for a successfully parsed chunk:
the per-line success:false error path, then content extraction and the
conditional emission. -/
def handleQwenChunk (msgId : String) (s : TState) (j : JVal) :
    TState × List OutEvent :=
  if isSuccessFalse j then
    ({ s with errorDetected := true },
     [mkChunk msgId (lineErrorContent j) (some "stop")])
  else
    let (s1, content, isFinished) := extractContent s j
    if content != "" || isFinished then
      ({ s1 with chunkCount := s1.chunkCount + 1 },
       [mkChunk msgId content (if isFinished then some "stop" else none)])
    else (s1, [])

/-- One data string after prefix stripping: the [DONE] passthrough, the
JSON path, and the raw-text fallback of the catch block. -/
def processDataStr (msgId : String) (s : TState) (dataStr : String) :
    TState × List OutEvent :=
  if dataStr = "[DONE]" then (s, [.done])
  else
    match parseJson dataStr with
    | some j => handleQwenChunk msgId s j
    | none =>
      if dataStr != "" && strTrim dataStr != "" && !strStartsWith dataStr "\x7b" then
        ({ s with chunkCount := s.chunkCount + 1 },
         [mkChunk msgId dataStr none])
      else (s, [])

/-- One line of the split buffer: blank lines are skipped, a data: prefix
is stripped and the rest trimmed. -/
def processLine (msgId : String) (s : TState) (line : String) :
    TState × List OutEvent :=
  if line = "" || strTrim line = "" then (s, [])
  else
    let dataStr := if strStartsWith line "data:" then strTrim (line.drop 5) else line
    processDataStr msgId s dataStr

def processLinesAux (msgId : String) (s : TState) :
    List String → TState × List OutEvent
  | [] => (s, [])
  | l :: ls =>
    let (s1, o1) := processLine msgId s l
    let (s2, o2) := processLinesAux msgId s1 ls
    (s2, o1 ++ o2)

/-- One transform(chunk, controller) call of the v3.9 transformer: append
to the buffer, discard on overflow, run the buffer-level error check, then
split into lines and translate each. -/
def transformStep (msgId : String) (s : TState) (c : String) :
    TState × List OutEvent :=
  let buf := s.buffer ++ c
  if buf.length > MAX_BUFFER_SIZE then ({ s with buffer := "" }, [])
  else
    let errHit : Option JVal :=
      if !s.errorDetected && strIncludes buf "\"success\":false" then
        match parseJson buf with
        | some j => if isSuccessFalse j then some j else none
        | none => none
      else none
    match errHit with
    | some j =>
      ({ s with errorDetected := true, buffer := "" },
       [mkChunk msgId (bufferErrorContent j) (some "stop"), .done])
    | none =>
      let (lines, rest) : List String × String :=
        if strIncludes buf "\n\n" then
          let parts := strSplitOn buf "\n\n"
          (parts.dropLast, (parts.getLast?).getD "")
        else if strIncludes buf "\n" then
          let parts := strSplitOn buf "\n"
          let lastLine := (parts.getLast?).getD ""
          if lastLine != "" && !strStartsWith lastLine "data:" then
            (parts.dropLast, lastLine)
          else (parts, "")
        else ([], buf)
      processLinesAux msgId { s with buffer := rest } lines

def processChunks (msgId : String) (s : TState) :
    List String → TState × List OutEvent
  | [] => (s, [])
  | c :: cs =>
    let (s1, o1) := transformStep msgId s c
    let (s2, o2) := processChunks msgId s1 cs
    (s2, o1 ++ o2)

/-- flush(controller): one last error parse of the trimmed leftover
buffer, then the terminal marker unless the stream already errored. -/
def flushStep (msgId : String) (s : TState) : List OutEvent :=
  let errOut : List OutEvent :=
    if strTrim s.buffer != "" && !s.errorDetected then
      match parseJson (strTrim s.buffer) with
      | some j =>
        if isSuccessFalse j then
          [mkChunk msgId (flushErrorContent j) (some "stop")]
        else []
      | none => []
    else []
  errOut ++ (if !s.errorDetected then [OutEvent.done] else [])

/-- A whole stream translation: every transform call in order, then flush. -/
def runTransform (msgId : String) (chunks : List String) : List OutEvent :=
  let (s, outs) := processChunks msgId initState chunks
  outs ++ flushStep msgId s

end QP

namespace QP

/-! The v2.3 stream transformer of src/unnamed/part_000: split on blank
lines only, data: frames only, delta-only extraction, and the think-tag
wrapper conditions, which read the leftover receive buffer. -/

/-- One data: line of the v2.3 transformer. The buf argument is the
leftover receive buffer after the split, which is what the script's
think-tag conditions consult. -/
def v23ProcessLine (msgId buf line : String) : List OutEvent :=
  if !strStartsWith line "data:" then []
  else
    match parseJson (line.drop 5) with
    | none => []
    | some j =>
      match j.getField "choices" with
      | some (.arr (choice :: _)) =>
        -- !qwenChunk.choices || qwenChunk.choices.length === 0 skips
        match choice.getField "delta" with
        | some delta =>
          if delta.truthy then
            let content0 := contentOf delta
            let content1 :=
              if strFieldIs delta "phase" "think" && !strIncludes buf "<think>" then
                "<think>\n" ++ content0
              else content0
            let content2 :=
              if strFieldIs delta "phase" "answer" && strIncludes buf "<think>" &&
                 !strIncludes buf "</think>" then
                "\n</think>\n" ++ content1
              else content1
            let mdl :=
              match j.getField "model" with
              | some (.str m) => if m ≠ "" then m else "qwen"
              | _ => "qwen"
            let fin : Option String :=
              match choice.getField "finish_reason" with
              | some (.str f) => if f ≠ "" then some f else none
              | _ => none
            [.chunk ("chatcmpl-" ++ msgId) "chat.completion.chunk" mdl content2 fin]
          else []
        | none => []
      | _ => []

/-- One transform call of the v2.3 transformer: the state is just the
receive buffer. -/
def v23Step (msgId : String) (buffer c : String) : String × List OutEvent :=
  let b := buffer ++ c
  let parts := strSplitOn b "\n\n"
  let rest := (parts.getLast?).getD ""
  let lines := parts.dropLast
  (rest, lines.foldl (fun acc l => acc ++ v23ProcessLine msgId rest l) [])

def v23Chunks (msgId : String) (buffer : String) :
    List String → String × List OutEvent
  | [] => (buffer, [])
  | c :: cs =>
    let (b1, o1) := v23Step msgId buffer c
    let (b2, o2) := v23Chunks msgId b1 cs
    (b2, o1 ++ o2)

/-- A whole v2.3 stream translation; flush only appends the terminal
marker. -/
def v23Run (msgId : String) (chunks : List String) : List OutEvent :=
  (v23Chunks msgId "" chunks).2 ++ [OutEvent.done]

/-! Request transformation, src/main.ts transformOpenAIRequestToQwen. -/

/-- The chat_type decision of src/main.ts lines 224 to 229: sequential
exact-suffix tests. -/
def chatTypeOf (model : String) : String :=
  let ct := "t2t"
  let ct := if strEndsWith model "-image" then "t2i" else ct
  let ct := if strEndsWith model "-image_edit" then "image_edit" else ct
  if strEndsWith model "-video" then "t2v" else ct

/-- model.replace of the anchored alternation
-(search|thinking|image|image_edit|video)$: at most one alternative can
match as a suffix (their endings differ pairwise), so the replace strips
exactly that suffix when present. -/
def stripModelSuffix (model : String) : String :=
  if strEndsWith model "-search" then model.dropRight 7
  else if strEndsWith model "-thinking" then model.dropRight 9
  else if strEndsWith model "-image_edit" then model.dropRight 11
  else if strEndsWith model "-image" then model.dropRight 6
  else if strEndsWith model "-video" then model.dropRight 6
  else model

/-- The thinking flag of the text-mode request:
model.includes('-thinking'). -/
def thinkingEnabledOf (model : String) : Bool :=
  strIncludes model "-thinking"

/-- The feature_config object the text-mode request body carries, as the
JSON object that is sent: it has exactly the two keys output_schema and
thinking_enabled. -/
def textFeatureConfig (model : String) : JVal :=
  .obj [("output_schema", .str "phase"),
        ("thinking_enabled", .bool (thinkingEnabledOf model))]

/-- The chat_type decision of the v2.3 script src/unnamed/part_000 lines
282 to 285: includes-based tests. -/
def chatTypeV23 (model : String) : String :=
  let ct := "t2t"
  let ct := if strIncludes model "-search" then "search" else ct
  let ct := if strIncludes model "-image" then "t2i" else ct
  if strIncludes model "-video" then "t2v" else ct

/-! The size-to-aspect-ratio mapping of the image-generation branch. -/

/-- The preset lookup table sizeMap of src/main.ts. -/
def sizeMap : List (String × String) :=
  [("256x256", "1:1"), ("512x512", "1:1"), ("1024x1024", "1:1"),
   ("1792x1024", "16:9"), ("1024x1792", "9:16"), ("2048x2048", "1:1"),
   ("1152x768", "3:2"), ("768x1152", "2:3")]

def lookupSize (s : String) : Option String :=
  (sizeMap.find? (fun p => p.1 = s)).map (fun p => p.2)

/-- Number(component) for a split size component, restricted to the shapes
the claims exercise: an empty or all-blank component gives 0 as in
JavaScript, a digit string its value, anything else (NaN in JavaScript,
and the fractional and negative shapes not modelled) none. Both 0 and
none are falsy and fall to the 1:1 default below. -/
def jsNumberNat (s : String) : Option Nat :=
  let t := strTrim s
  if t = "" then some 0
  else if t.data.all Char.isDigit then some (digitsToNat t.data)
  else none

/-- The recursive gcd helper inside calculateAspectRatio, fuelled so that
concrete runs reduce in the kernel; the second argument strictly drops on
each step, so the fuel below never runs out. -/
def jsGcdAux : Nat → Nat → Nat → Nat
  | 0, a, _ => a
  | fuel + 1, a, b => if b = 0 then a else jsGcdAux fuel b (a % b)

def jsGcd (a b : Nat) : Nat :=
  jsGcdAux (b + 1) a b

/-- calculateAspectRatio of src/main.ts: split on every x, take the first
two components as width and height, default 1:1 when either is falsy or
NaN, otherwise reduce by the gcd. -/
def calculateAspectRatio (size : String) : String :=
  let parts := strSplitOn size "x"
  match (parts.get? 0).bind jsNumberNat, (parts.get? 1).bind jsNumberNat with
  | some w, some h =>
    if w = 0 ∨ h = 0 then "1:1"
    else
      let d := jsGcd w h
      toString (w / d) ++ ":" ++ toString (h / d)
  | _, _ => "1:1"

/-- qwenSize: sizeMap[openAISize] || calculateAspectRatio(openAISize)
(every table entry is a non-empty, truthy string). -/
def qwenSizeOf (openAISize : String) : String :=
  match lookupSize openAISize with
  | some r => r
  | none => calculateAspectRatio openAISize

end QP

namespace QP

/-! processMessagesForQwen of src/unnamed/part_000: inline data-URI images
are uploaded through uploadFileToQwenOss, other parts rewritten or kept.
The network is an oracle giving each successive upload call's outcome; an
upload is recorded by the base64 payload it sends (the bytes are its
decoding, so equal payloads mean equal bytes). -/

/-- A content part of an incoming OpenAI message, covering the shapes the
script distinguishes. -/
inductive OAPart where
  | text (t : String)
  | imageUrl (u : String)
  | other
deriving DecidableEq

inductive OAContent where
  | str (s : String)
  | parts (ps : List OAPart)
deriving DecidableEq

structure OAMessage where
  role : String
  content : OAContent
deriving DecidableEq

/-- A rewritten content part: text, an uploaded image reference, or an
unchanged pass-through part. -/
inductive QPart where
  | text (t : String)
  | image (u : String)
  | keep (p : OAPart)
deriving DecidableEq

/-- The content of a processed message: the original object passed
through, a flattened string, or the mixed media sequence. -/
inductive OutContent where
  | orig (c : OAContent)
  | flat (s : String)
  | mixed (ps : List QPart)
deriving DecidableEq

/-- A regex word character. -/
def isWordChar (c : Char) : Bool :=
  c.isAlphanum || c = '_'

/-- The match of /^data:(image\/\w+);base64,(.*)$/ against a URL: the mime
type and the base64 payload. The dot of the pattern cannot match a line
break, so a payload holding one fails the match. -/
def dataImageMatch (url : String) : Option (String × String) :=
  if !strStartsWith url "data:image/" then none
  else
    let rest := (url.drop 11).data
    let sub := rest.takeWhile isWordChar
    let after := String.mk (rest.dropWhile isWordChar)
    if sub.isEmpty then none
    else if strStartsWith after ";base64," then
      let payload := after.drop 8
      if payload.data.any (fun c => c = '\n' ∨ c = '\r') then none
      else some ("image/" ++ String.mk sub, payload)
    else none

/-- The upload call counter and the payloads sent so far, in call order. -/
structure UpCtx where
  calls : Nat
  uploads : List String
deriving DecidableEq

/-- One part of a user message's content array: the data-URI branch
uploads (recording the payload and consuming one oracle outcome), a plain
image_url becomes markdown text, everything else passes through. The
middle component reports whether this part set hasImage. -/
def processPart (upl : Nat → Except String String) (st : UpCtx) (p : OAPart) :
    UpCtx × Bool × List QPart :=
  match p with
  | .imageUrl u =>
    if strStartsWith u "data:" then
      match dataImageMatch u with
      | none => (st, true, [.text "[Invalid Image Data]"])
      | some (_, payload) =>
        let st' : UpCtx :=
          { calls := st.calls + 1, uploads := st.uploads ++ [payload] }
        match upl st.calls with
        | .ok url => (st', true, [.image url])
        | .error msg => (st', true, [.text ("[Image upload failed: " ++ msg ++ "]")])
    else (st, false, [.text ("![]( " ++ u ++ " )")])
  | .text t => (st, false, [.text t])
  | .other => (st, false, [.keep .other])

def processParts (upl : Nat → Except String String) :
    UpCtx → List OAPart → UpCtx × Bool × List QPart
  | st, [] => (st, false, [])
  | st, p :: ps =>
    let (st1, h1, out1) := processPart upl st p
    let (st2, h2, out2) := processParts upl st1 ps
    (st2, h1 || h2, out1 ++ out2)

/-- Array.prototype.join with the line-break separator. -/
def joinNl : List String → String
  | [] => ""
  | [x] => x
  | x :: xs => x ++ "\n" ++ joinNl xs

/-- The flattening loop over newContent when an image was present:
consecutive text parts join with a line break, media parts pass through. -/
def flattenGo : List QPart → List String → List QPart
  | [], acc =>
    if acc.isEmpty then [] else [QPart.text (joinNl acc)]
  | QPart.text t :: rest, acc => flattenGo rest (acc ++ [t])
  | item :: rest, acc =>
    (if acc.isEmpty then [] else [QPart.text (joinNl acc)]) ++
      item :: flattenGo rest []

def flattenMixed (ps : List QPart) : List QPart :=
  flattenGo ps []

/-- The no-image case: the text parts of the ORIGINAL content joined with
line breaks (the script filters message.content, not newContent). -/
def combinedText (ps : List OAPart) : String :=
  joinNl (ps.filterMap (fun p => match p with | .text t => some t | _ => none))

/-- One message: only user messages with array content are rewritten. -/
def processMessage (upl : Nat → Except String String) (st : UpCtx)
    (m : OAMessage) : UpCtx × String × OutContent :=
  match m.content with
  | .parts ps =>
    if m.role = "user" then
      let (st1, hasImage, newContent) := processParts upl st ps
      if hasImage then (st1, m.role, .mixed (flattenMixed newContent))
      else (st1, m.role, .flat (combinedText ps))
    else (st, m.role, .orig m.content)
  | _ => (st, m.role, .orig m.content)

def processMessagesAux (upl : Nat → Except String String) :
    UpCtx → List OAMessage → UpCtx × List (String × OutContent)
  | st, [] => (st, [])
  | st, m :: ms =>
    let (st1, role, c) := processMessage upl st m
    let (st2, rest) := processMessagesAux upl st1 ms
    (st2, (role, c) :: rest)

/-- processMessagesForQwen: the rewritten messages and the list of
payloads uploaded, in call order. -/
def processMessagesForQwen (upl : Nat → Except String String)
    (msgs : List OAMessage) : List (String × OutContent) × List String :=
  let (st, out) := processMessagesAux upl { calls := 0, uploads := [] } msgs
  (out, st.uploads)

/-! The retry loops of src/upload.js. Each attempt's network outcome comes
from an oracle indexed by the retryCount it is made with; an exception
carries the axios error.code and error.response?.status. The backoff
delays the loop would sleep are returned as data. -/

/-- An axios-style failure: a code such as ECONNABORTED, and the HTTP
status of the response when there is one. Errors thrown inside the try
block itself (validation, incomplete STS payloads, non-200 OSS results)
carry neither. -/
structure JsErr where
  code : Option String
  status : Option Nat
deriving DecidableEq

def UPLOAD_MAX_RETRIES : Nat := 3
def UPLOAD_RETRY_DELAY : Nat := 1000

/-- The retry condition of requestStsToken:
error.code === 'ECONNABORTED' || error.code === 'ETIMEDOUT' ||
error.response?.status >= 500. -/
def stsRetryable (e : JsErr) : Bool :=
  e.code = some "ECONNABORTED" || e.code = some "ETIMEDOUT" ||
  (match e.status with | some n => 500 ≤ n | none => false)

inductive StsFailure where
  | auth
  | net (e : JsErr)
deriving DecidableEq

/-- The catch block of requestStsToken from a given retryCount: a 403
response fails as an authorization failure at once; a retryable failure
below the retry cap recurses after a doubling delay; anything else is
rethrown. The result carries the delays slept, in order. -/
def requestStsToken (attempt : Nat → Except JsErr Unit) (retryCount : Nat) :
    Except StsFailure Unit × List Nat :=
  match attempt retryCount with
  | .ok _ => (.ok (), [])
  | .error e =>
    if e.status = some 403 then (.error .auth, [])
    else if hrc : retryCount < UPLOAD_MAX_RETRIES then
      if stsRetryable e then
        let (r, ds) := requestStsToken attempt (retryCount + 1)
        (r, UPLOAD_RETRY_DELAY * 2 ^ retryCount :: ds)
      else (.error (.net e), [])
    else (.error (.net e), [])
termination_by UPLOAD_MAX_RETRIES - retryCount
decreasing_by omega

/-- The catch block of uploadToOssWithSts from a given retryCount: ANY
failure below the retry cap recurses after a doubling delay; only
exhaustion rethrows. -/
def uploadToOssWithSts (attempt : Nat → Except JsErr Unit) (retryCount : Nat) :
    Except JsErr Unit × List Nat :=
  match attempt retryCount with
  | .ok _ => (.ok (), [])
  | .error e =>
    if hrc : retryCount < UPLOAD_MAX_RETRIES then
      let (r, ds) := uploadToOssWithSts attempt (retryCount + 1)
      (r, UPLOAD_RETRY_DELAY * 2 ^ retryCount :: ds)
    else (.error e, [])
termination_by UPLOAD_MAX_RETRIES - retryCount
decreasing_by omega

end QP

namespace QP

/-! Derived definitions used to state the properties, and the concrete
inputs of the counterexamples and witnesses. -/

/-- The markdown wrapping the transformer applies to a fresh asset URL. -/
def wrapUrl (u : String) : String :=
  "![Image](" ++ u ++ ")"

/-- How many emitted frames carry exactly the markdown delta of the URL u. -/
def countWrap (u : String) (outs : List OutEvent) : Nat :=
  outs.countP (fun e =>
    match e with
    | .chunk _ _ _ c _ => c == wrapUrl u
    | .done => false)

/-- The fixed header every v3.9 JSON chunk must carry; the terminal marker
is the only other output shape. -/
def headerOk (msgId : String) : OutEvent → Bool
  | .done => true
  | .chunk id obj mdl _ _ =>
    id == "chatcmpl-" ++ msgId && obj == "chat.completion.chunk" &&
      mdl == "qwen-proxy"

/-- A backend frame of the image-generation phase whose delta carries the
given content and status, as JSON.parse would deliver it. -/
def imageGenFrame (u status : String) : JVal :=
  .obj [("choices", .arr [.obj [("delta", .obj
    [("phase", .str "image_gen"), ("content", .str u),
     ("status", .str status)])]])]

/-- Translation of a list of already-parsed frames from a given state
(the per-line layer of the v3.9 transformer, after framing and parsing). -/
def runFrames (msgId : String) (s : TState) : List JVal → TState × List OutEvent
  | [] => (s, [])
  | f :: fs =>
    let (s1, o1) := handleQwenChunk msgId s f
    let (s2, o2) := runFrames msgId s1 fs
    (s2, o1 ++ o2)

/-- A backend error body arriving unframed: the C1 scenario payload. -/
def errBodyStr : String :=
  "\x7b\"success\":false,\"data\":\x7b\"code\":\"X\"\x7d,\"request_id\":\"r1\"\x7d"

/-- An ordinary content frame arriving after the error body. -/
def hiFrameStr : String :=
  "data: \x7b\"choices\":[\x7b\"delta\":\x7b\"content\":\"hi\"\x7d\x7d]\x7d\n\n"

/-- The C9 scenario: two think-phase frames followed by an answer-phase
frame, each a complete data: event. -/
def thinkStreamStr : String :=
  "data: \x7b\"choices\":[\x7b\"delta\":\x7b\"phase\":\"think\"," ++
  "\"content\":\"a\"\x7d\x7d]\x7d\n\n" ++
  "data: \x7b\"choices\":[\x7b\"delta\":\x7b\"phase\":\"think\"," ++
  "\"content\":\"b\"\x7d\x7d]\x7d\n\n" ++
  "data: \x7b\"choices\":[\x7b\"delta\":\x7b\"phase\":\"answer\"," ++
  "\"content\":\"c\"\x7d\x7d]\x7d\n\n"

/-- A chunk one character past the buffer ceiling. -/
def bigChunk : String :=
  String.mk (List.replicate (MAX_BUFFER_SIZE + 1) 'a')

/-- An OSS attempt oracle: a 403 failure first, then success. -/
def oss403Once : Nat → Except JsErr Unit :=
  fun k => if k = 0 then .error { code := none, status := some 403 } else .ok ()

/-- An STS attempt oracle that always fails with 403. -/
def sts403Always : Nat → Except JsErr Unit :=
  fun _ => .error { code := none, status := some 403 }

/-- An STS attempt oracle that always fails with a plain 400. -/
def sts400Always : Nat → Except JsErr Unit :=
  fun _ => .error { code := none, status := some 400 }

/-- The parsed form of errBodyStr. -/
def errJ : JVal :=
  .obj [("success", .bool false), ("data", .obj [("code", .str "X")]),
        ("request_id", .str "r1")]

end QP

namespace QP

/-! The chat middleware staged as the second document of src/Dockerfile
(the Node.js variant's chat-middleware file; it requires the staged
upload.js). -/

/-- isChatType: an empty model gives t2t, otherwise the first match of an
else-if chain of includes-tests, with -search first and -image-edit tested
before the broader -image. -/
def isChatType (model : String) : String :=
  if model = "" then "t2t"
  else if strIncludes model "-search" then "search"
  else if strIncludes model "-image-edit" then "image_edit"
  else if strIncludes model "-image" then "t2i"
  else if strIncludes model "-video" then "t2v"
  else if strIncludes model "-deep-research" then "deep_research"
  else "t2t"

/-- isThinkingEnabled: the thinking configuration object, built by
mutation of the base config. An empty model returns the base config at
once. The budget parameter is the request's thinking_budget, an integer
when present (the claim's inputs are numeric); the condition
Number(b) !== Number.NaN of the source is always true in JavaScript and
is dropped, leaving truthiness (b not 0), positivity and the strict
38912 bound. -/
def isThinkingEnabled (model : String) (enableThinking : Bool)
    (thinkingBudget : Option Int) : JVal :=
  if model = "" then
    .obj [("output_schema", .str "phase"), ("thinking_enabled", .bool false),
          ("thinking_budget", .num 81920)]
  else
    let enabled := strIncludes model "-thinking" || enableThinking
    let base : List (String × JVal) :=
      [("output_schema", .str "phase"), ("thinking_enabled", .bool enabled),
       ("thinking_budget", .num 81920)]
    match thinkingBudget with
    | some b =>
      if b ≠ 0 ∧ 0 < b ∧ b < 38912 then .obj (base ++ [("budget", .num b)])
      else .obj base
    | none => .obj base

/-- The effect of base64.replace(/data:(.+);base64,/, '') on the URL
shapes the claims exercise: a data URI loses its header up to the (last,
by greediness) ;base64, marker, leaving the payload; a URL without a
matching header is unchanged, as in the source. -/
def stripDataHeader (s : String) : String :=
  if strStartsWith s "data:" ∧ strIncludes s ";base64," then
    ((strSplitOn s ";base64,").getLast?).getD s
  else s

/-- A content item as the middleware distinguishes them: a text part, an
image_url part carrying a URL, an image part (whose base64 stays null and
which parserMessages therefore skips), or anything else (untouched). -/
inductive MwPart where
  | text (t : String)
  | imageUrl (u : String)
  | image (u : String)
  | other
deriving DecidableEq

inductive MwContent where
  | str (s : String)
  | parts (ps : List MwPart)
deriving DecidableEq

structure MwMessage where
  role : String
  content : MwContent
deriving DecidableEq

/-- The cache-and-upload state threaded through parserMessages: the
fingerprint-to-URL cache, the payloads sent to uploadFileToQwenOss in
call order, the URLs assigned to rewritten image items in order, and the
upload call counter (indexing the network oracle). Modelled from the
spec: CacheManager (img-caches.js, not under src/) is the ContentCache of
section 4.4 — lookup and insert on a fingerprint-keyed map, no eviction,
persisting across calls, here passed explicitly. -/
structure MwSt where
  cache : List (String × String)
  uploads : List String
  images : List String
  calls : Nat
deriving DecidableEq

/-- CacheManager.cacheIsExist / getCache as one lookup. -/
def lookupCache (cache : List (String × String)) (sig : String) :
    Option String :=
  (cache.find? (fun p => p.1 = sig)).map (fun p => p.2)

/-- One content item of a user or assistant message, as parserMessages
handles it. The sha argument is sha256Encrypt (tools.js, not under src/),
modelled from the spec as an arbitrary deterministic fingerprint function;
upl gives each successive uploadFileToQwenOss outcome (some file_url on
status 200, none on failure, which the source logs and drops without
caching). The Nat component is newContent.length, which only steers
whether a text item is pushed or split into a synthetic trailing user
message; such appended messages carry string content, so later loop
passes over them change no cache or upload state, and the in-place item
rewriting is tracked through the images list. -/
def mwProcessItem (sha : String → String) (upl : Nat → Option String)
    (st : MwSt) (ncLen : Nat) : MwPart → MwSt × Nat
  | .imageUrl u =>
    if u ≠ "" then
      let payload := stripDataHeader u
      let sig := sha payload
      match lookupCache st.cache sig with
      | some url => ({ st with images := st.images ++ [url] }, ncLen + 1)
      | none =>
        match upl st.calls with
        | some url =>
          ({ cache := st.cache ++ [(sig, url)],
             uploads := st.uploads ++ [payload],
             images := st.images ++ [url],
             calls := st.calls + 1 }, ncLen + 1)
        | none =>
          ({ st with
              uploads := st.uploads ++ [payload],
              calls := st.calls + 1 }, ncLen)
    else (st, ncLen)
  | .image _ => (st, ncLen)
  | .text _ => if 2 ≤ ncLen then (st, ncLen) else (st, ncLen + 1)
  | .other => (st, ncLen)

def mwProcessItems (sha : String → String) (upl : Nat → Option String) :
    MwSt → Nat → List MwPart → MwSt
  | st, _, [] => st
  | st, ncLen, item :: rest =>
    let (st1, nc1) := mwProcessItem sha upl st ncLen item
    mwProcessItems sha upl st1 nc1 rest

/-- One message: only user and assistant messages with array content
touch the cache or upload anything (system messages are flattened to
text, string contents skipped). -/
def mwProcessMessage (sha : String → String) (upl : Nat → Option String)
    (st : MwSt) (m : MwMessage) : MwSt :=
  if m.role = "user" ∨ m.role = "assistant" then
    match m.content with
    | .parts ps => mwProcessItems sha upl st 0 ps
    | .str _ => st
  else st

/-- The cache and upload effect of parserMessages over a message list. -/
def mwRun (sha : String → String) (upl : Nat → Option String)
    (st : MwSt) : List MwMessage → MwSt
  | [] => st
  | m :: ms => mwRun sha upl (mwProcessMessage sha upl st m) ms

/-- The empty cache-and-upload state. -/
def mwInit : MwSt :=
  { cache := [], uploads := [], images := [], calls := 0 }

/-- An upload oracle where every call succeeds with the same URL. -/
def uplOk : Nat → Option String :=
  fun _ => some "https://cdn.example/img.png"

/-- The same inline image twice in one user message (identical bytes). -/
def mwDupMsgs : List MwMessage :=
  [{ role := "user",
     content := .parts [.imageUrl "data:image/png;base64,AAAA",
                        .imageUrl "data:image/png;base64,AAAA"] }]

end QP

namespace QP

set_option maxRecDepth 8000

/-! Shared helper lemmas. -/

theorem jsGcdAux_eq_gcd : ∀ fuel a b, b < fuel → jsGcdAux fuel a b = Nat.gcd a b := by
  intro fuel
  induction fuel with
  | zero => intro a b h; exact absurd h (Nat.not_lt_zero b)
  | succ f ih =>
    intro a b hb
    rw [jsGcdAux]
    split
    · next h => subst h; simp [Nat.gcd_zero_right]
    · next h =>
      have hm : a % b < f :=
        lt_of_lt_of_le (Nat.mod_lt _ (Nat.pos_of_ne_zero h)) (by omega)
      rw [ih b (a % b) hm, Nat.gcd_comm b (a % b), ← Nat.gcd_rec, Nat.gcd_comm]

theorem jsGcd_eq_gcd (a b : Nat) : jsGcd a b = Nat.gcd a b :=
  jsGcdAux_eq_gcd (b + 1) a b (Nat.lt_succ_self b)

/-- C7: the preset table maps 1792x1024 to 16:9; a size absent from the
table whose two components parse as positive numbers reduces by the
greatest common divisor, giving a ratio in lowest terms — in particular
333x111 gives 3:1. -/
theorem C7_aspectRatio (s : String) (w h : Nat)
    (hw : ((strSplitOn s "x").get? 0).bind jsNumberNat = some w)
    (hh : ((strSplitOn s "x").get? 1).bind jsNumberNat = some h)
    (hw0 : 0 < w) (hh0 : 0 < h) (hmap : lookupSize s = none) :
    qwenSizeOf "1792x1024" = "16:9" ∧
    qwenSizeOf "333x111" = "3:1" ∧
    qwenSizeOf s = toString (w / Nat.gcd w h) ++ ":" ++ toString (h / Nat.gcd w h) ∧
    Nat.Coprime (w / Nat.gcd w h) (h / Nat.gcd w h) := by
  refine ⟨by decide, by decide, ?_,
    Nat.coprime_div_gcd_div_gcd (Nat.gcd_pos_of_pos_left _ hw0)⟩
  simp only [qwenSizeOf, hmap, calculateAspectRatio, hw, hh]
  rw [if_neg (by omega), jsGcd_eq_gcd]

theorem C7_aspectRatio_witness :
    ((strSplitOn "333x111" "x").get? 0).bind jsNumberNat = some 333 ∧
    ((strSplitOn "333x111" "x").get? 1).bind jsNumberNat = some 111 ∧
    qwenSizeOf "333x111" =
      toString (333 / Nat.gcd 333 111) ++ ":" ++ toString (111 / Nat.gcd 333 111) ∧
    Nat.Coprime (333 / Nat.gcd 333 111) (111 / Nat.gcd 333 111) := by
  have h := C7_aspectRatio "333x111" 333 111 (by decide) (by decide)
    (by decide) (by decide) (by decide)
  exact ⟨by decide, by decide, h.2.2.1, h.2.2.2⟩

end QP

namespace QP

set_option maxRecDepth 8000

/-- C9: evaluating the v2.3 transformer at the failing input — two
think-phase frames then an answer-phase frame, each a complete data:
event. The wrapper opens on BOTH think frames (the condition consults the
leftover receive buffer, which is empty, not what was emitted) and the
think-to-answer transition does not close it: the answer frame's content
is forwarded bare. -/
theorem C9_thinkWrapper :
    v23Run "m" [thinkStreamStr] =
      [.chunk "chatcmpl-m" "chat.completion.chunk" "qwen" "<think>\na" none,
       .chunk "chatcmpl-m" "chat.completion.chunk" "qwen" "<think>\nb" none,
       .chunk "chatcmpl-m" "chat.completion.chunk" "qwen" "c" none,
       .done] := by
  decide

end QP

namespace QP

set_option maxRecDepth 8000

/-- C6 counterexample: an upload failure that is neither a timeout nor a
5xx — a 403 — IS retried by uploadToOssWithSts (one backoff delay is
slept and a second attempt made, which here succeeds), contradicting the
claim that both calls retry only on timeout or 5xx. -/
theorem C6_counterexample :
    uploadToOssWithSts oss403Once 0 = (.ok (), [1000]) ∧
    stsRetryable { code := none, status := some 403 } = false := by
  constructor
  · rw [uploadToOssWithSts]
    simp only [oss403Once, UPLOAD_MAX_RETRIES, UPLOAD_RETRY_DELAY]
    norm_num
    rw [uploadToOssWithSts]
    simp [oss403Once]
  · decide

theorem requestStsToken_403 (att : Nat → Except JsErr Unit) (rc : Nat) (e : JsErr)
    (ha : att rc = .error e) (h403 : e.status = some 403) :
    requestStsToken att rc = (.error .auth, []) := by
  rw [requestStsToken, ha]
  simp [h403]

theorem requestStsToken_noRetry (att : Nat → Except JsErr Unit) (rc : Nat) (e : JsErr)
    (ha : att rc = .error e) (h403 : e.status ≠ some 403)
    (hret : stsRetryable e = false) :
    requestStsToken att rc = (.error (.net e), []) := by
  rw [requestStsToken, ha]
  simp [h403, hret]

theorem uploadToOss_retryAny (att : Nat → Except JsErr Unit) (rc : Nat) (e : JsErr)
    (ha : att rc = .error e) (hrc : rc < UPLOAD_MAX_RETRIES) :
    uploadToOssWithSts att rc =
      ((uploadToOssWithSts att (rc + 1)).1,
        UPLOAD_RETRY_DELAY * 2 ^ rc :: (uploadToOssWithSts att (rc + 1)).2) := by
  conv_lhs => rw [uploadToOssWithSts]
  rw [ha]
  simp [hrc]

theorem stsDelays (att : Nat → Except JsErr Unit) :
    ∀ fuel rc, UPLOAD_MAX_RETRIES - rc ≤ fuel →
    List.Chain' (fun a b => b = 2 * a) ((requestStsToken att rc).2) ∧
    (requestStsToken att rc).2.length ≤ UPLOAD_MAX_RETRIES - rc ∧
    (∀ d, (requestStsToken att rc).2.head? = some d →
      d = UPLOAD_RETRY_DELAY * 2 ^ rc) := by
  intro fuel
  induction fuel with
  | zero =>
    intro rc hrc
    have hge : ¬rc < UPLOAD_MAX_RETRIES := by
      simp [UPLOAD_MAX_RETRIES] at hrc ⊢; omega
    rw [requestStsToken]
    cases att rc with
    | ok a => simp
    | error e =>
      by_cases h4 : e.status = some 403 <;> simp [h4, hge]
  | succ f ih =>
    intro rc hrc
    cases hatt : att rc with
    | ok a => rw [requestStsToken, hatt]; simp
    | error e =>
      by_cases h4 : e.status = some 403
      · rw [requestStsToken, hatt]; simp [h4]
      · by_cases hlt : rc < UPLOAD_MAX_RETRIES
        · cases hr : stsRetryable e with
          | false => rw [requestStsToken, hatt]; simp [h4, hlt, hr]
          | true =>
            have heq : requestStsToken att rc =
                ((requestStsToken att (rc + 1)).1,
                  UPLOAD_RETRY_DELAY * 2 ^ rc :: (requestStsToken att (rc + 1)).2) := by
              conv_lhs => rw [requestStsToken]
              rw [hatt]
              simp [h4, hlt, hr]
            have hih := ih (rc + 1) (by omega)
            rw [heq]
            refine ⟨?_, ?_, ?_⟩
            · rw [List.chain'_cons']
              refine ⟨?_, hih.1⟩
              intro y hy
              have hyy := hih.2.2 y (by simpa using hy)
              rw [hyy, pow_succ]
              ring
            · have hlen := hih.2.1
              simp only [List.length_cons]
              omega
            · intro d hd
              simp only [List.head?_cons, Option.some.injEq] at hd
              exact hd.symm
        · rw [requestStsToken, hatt]; simp [h4, hlt]

theorem ossDelays (att : Nat → Except JsErr Unit) :
    ∀ fuel rc, UPLOAD_MAX_RETRIES - rc ≤ fuel →
    List.Chain' (fun a b => b = 2 * a) ((uploadToOssWithSts att rc).2) ∧
    (uploadToOssWithSts att rc).2.length ≤ UPLOAD_MAX_RETRIES - rc ∧
    (∀ d, (uploadToOssWithSts att rc).2.head? = some d →
      d = UPLOAD_RETRY_DELAY * 2 ^ rc) := by
  intro fuel
  induction fuel with
  | zero =>
    intro rc hrc
    have hge : ¬rc < UPLOAD_MAX_RETRIES := by
      simp [UPLOAD_MAX_RETRIES] at hrc ⊢; omega
    rw [uploadToOssWithSts]
    cases att rc with
    | ok a => simp
    | error e => simp [hge]
  | succ f ih =>
    intro rc hrc
    cases hatt : att rc with
    | ok a => rw [uploadToOssWithSts, hatt]; simp
    | error e =>
      by_cases hlt : rc < UPLOAD_MAX_RETRIES
      · have heq : uploadToOssWithSts att rc =
            ((uploadToOssWithSts att (rc + 1)).1,
              UPLOAD_RETRY_DELAY * 2 ^ rc :: (uploadToOssWithSts att (rc + 1)).2) := by
          conv_lhs => rw [uploadToOssWithSts]
          rw [hatt]
          simp [hlt]
        have hih := ih (rc + 1) (by omega)
        rw [heq]
        refine ⟨?_, ?_, ?_⟩
        · rw [List.chain'_cons']
          refine ⟨?_, hih.1⟩
          intro y hy
          have hyy := hih.2.2 y (by simpa using hy)
          rw [hyy, pow_succ]
          ring
        · have hlen := hih.2.1
          simp only [List.length_cons]
          omega
        · intro d hd
          simp only [List.head?_cons, Option.some.injEq] at hd
          exact hd.symm
      · rw [uploadToOssWithSts, hatt]; simp [hlt]

/-- C6 (amended): the credential request retries only on timeout or 5xx,
with a delay that doubles per attempt and at most UPLOAD_MAX_RETRIES
retries, and a 403 there is surfaced at once as an authorization failure;
but the object-storage upload retries on ANY failure (with the same
doubling, capped backoff), not only on timeout or 5xx. -/
theorem C6_retryPolicy :
    (∀ att rc e, att rc = .error e → e.status = some 403 →
      requestStsToken att rc = (.error .auth, [])) ∧
    (∀ att rc e, att rc = .error e → e.status ≠ some 403 →
      stsRetryable e = false →
      requestStsToken att rc = (.error (.net e), [])) ∧
    (∀ att rc, List.Chain' (fun a b => b = 2 * a) ((requestStsToken att rc).2) ∧
      (requestStsToken att rc).2.length ≤ UPLOAD_MAX_RETRIES) ∧
    (∀ att rc e, att rc = .error e → rc < UPLOAD_MAX_RETRIES →
      uploadToOssWithSts att rc =
        ((uploadToOssWithSts att (rc + 1)).1,
          UPLOAD_RETRY_DELAY * 2 ^ rc :: (uploadToOssWithSts att (rc + 1)).2)) ∧
    (∀ att rc, List.Chain' (fun a b => b = 2 * a) ((uploadToOssWithSts att rc).2) ∧
      (uploadToOssWithSts att rc).2.length ≤ UPLOAD_MAX_RETRIES) := by
  refine ⟨requestStsToken_403, requestStsToken_noRetry, ?_, uploadToOss_retryAny, ?_⟩
  · intro att rc
    have h := stsDelays att (UPLOAD_MAX_RETRIES - rc) rc (Nat.le_refl _)
    exact ⟨h.1, le_trans h.2.1 (Nat.sub_le _ _)⟩
  · intro att rc
    have h := ossDelays att (UPLOAD_MAX_RETRIES - rc) rc (Nat.le_refl _)
    exact ⟨h.1, le_trans h.2.1 (Nat.sub_le _ _)⟩

theorem C6_retryPolicy_witness :
    requestStsToken sts403Always 0 = (.error .auth, []) ∧
    requestStsToken sts400Always 0 =
      (.error (.net { code := none, status := some 400 }), []) ∧
    uploadToOssWithSts oss403Once 0 =
      ((uploadToOssWithSts oss403Once 1).1,
        UPLOAD_RETRY_DELAY * 2 ^ 0 :: (uploadToOssWithSts oss403Once 1).2) := by
  refine ⟨C6_retryPolicy.1 sts403Always 0 { code := none, status := some 403 } rfl rfl,
    C6_retryPolicy.2.1 sts400Always 0 { code := none, status := some 400 } rfl
      (by decide) (by decide),
    C6_retryPolicy.2.2.2.1 oss403Once 0 { code := none, status := some 403 } rfl
      (by decide)⟩

end QP

namespace QP

set_option maxRecDepth 8000

/-- C8: once the buffer after appending a chunk exceeds MAX_BUFFER_SIZE,
the whole buffer is discarded with no output, and the rest of the stream
is processed exactly as from the empty buffer — the discarded partial data
cannot influence any later output (and the step is a total function, so
nothing crashes). -/
theorem C8_bufferOverflow (msgId : String) (s : TState) (c : String)
    (rest : List String)
    (hov : (s.buffer ++ c).length > MAX_BUFFER_SIZE) :
    transformStep msgId s c = ({ s with buffer := "" }, []) ∧
    processChunks msgId s (c :: rest) =
      processChunks msgId { s with buffer := "" } rest := by
  have h1 : transformStep msgId s c = ({ s with buffer := "" }, []) := by
    simp only [transformStep]
    rw [if_pos hov]
  refine ⟨h1, ?_⟩
  simp only [processChunks, h1]
  simp

theorem C8_bufferOverflow_witness :
    (initState.buffer ++ bigChunk).length > MAX_BUFFER_SIZE ∧
    transformStep "m" initState bigChunk = ({ initState with buffer := "" }, []) ∧
    processChunks "m" initState [bigChunk, hiFrameStr] =
      processChunks "m" { initState with buffer := "" } [hiFrameStr] := by
  have hdata : (initState.buffer ++ bigChunk).data =
      List.replicate (MAX_BUFFER_SIZE + 1) 'a' := by
    rw [String.data_append]
    show [] ++ List.replicate (MAX_BUFFER_SIZE + 1) 'a' = _
    simp
  have hov : (initState.buffer ++ bigChunk).length > MAX_BUFFER_SIZE := by
    show ((initState.buffer ++ bigChunk).data).length > MAX_BUFFER_SIZE
    rw [hdata, List.length_replicate]
    omega
  exact ⟨hov, (C8_bufferOverflow "m" initState bigChunk [hiFrameStr] hov).1,
    (C8_bufferOverflow "m" initState bigChunk [hiFrameStr] hov).2⟩

/-- C1 counterexample: after the backend error body (which produces one
error delta plus one terminal marker), a later ordinary frame IS still
translated — the transformer does not stop translating after the error,
contradicting "translates no further frames of that stream afterward". -/
theorem C1_counterexample :
    runTransform "m" [errBodyStr, hiFrameStr] =
      [mkChunk "m" "Error: X\nRequest ID: r1" (some "stop"), .done,
       mkChunk "m" "hi" none] := by
  decide

/-- C1 (amended): when the accumulated buffer is itself a complete JSON
object carrying success false (and fits the ceiling), that transform call
emits exactly one error delta — the backend detail/code plus request
identifier — then exactly one terminal marker, clears the buffer and sets
the error flag; with the flag set, flush emits nothing further (no second
marker). But translation of later frames is not disabled, and an error
frame arriving as a data: line emits an error delta with no terminal
marker at all. -/
theorem C1_errorPath (msgId : String) (s : TState) (c : String) (j : JVal)
    (hne : s.errorDetected = false)
    (hlen : (s.buffer ++ c).length ≤ MAX_BUFFER_SIZE)
    (hinc : strIncludes (s.buffer ++ c) "\"success\":false" = true)
    (hparse : parseJson (s.buffer ++ c) = some j)
    (hsf : isSuccessFalse j = true) :
    transformStep msgId s c =
      ({ s with errorDetected := true, buffer := "" },
       [mkChunk msgId (bufferErrorContent j) (some "stop"), .done]) ∧
    (∀ s' : TState, s'.errorDetected = true → flushStep msgId s' = []) ∧
    (∀ (s' : TState) (j' : JVal), isSuccessFalse j' = true →
      handleQwenChunk msgId s' j' =
        ({ s' with errorDetected := true },
         [mkChunk msgId (lineErrorContent j') (some "stop")])) := by
  refine ⟨?_, ?_, ?_⟩
  · have hnov : ¬(s.buffer ++ c).length > MAX_BUFFER_SIZE := by omega
    simp only [transformStep]
    rw [if_neg hnov]
    simp [hne, hinc, hparse, hsf]
  · intro s' h
    unfold flushStep
    simp [h]
  · intro s' j' h
    unfold handleQwenChunk
    simp [h]

theorem C1_errorPath_witness :
    initState.errorDetected = false ∧
    parseJson (initState.buffer ++ errBodyStr) = some errJ ∧
    transformStep "m" initState errBodyStr =
      ({ initState with errorDetected := true, buffer := "" },
       [mkChunk "m" (bufferErrorContent errJ) (some "stop"), .done]) := by
  refine ⟨rfl, rfl, ?_⟩
  exact (C1_errorPath "m" initState errBodyStr errJ rfl (by decide) rfl rfl rfl).1

end QP

namespace QP

set_option maxRecDepth 8000

theorem headerOk_mkChunk (msgId content : String) (f : Option String) :
    headerOk msgId (mkChunk msgId content f) = true := by
  simp [headerOk, mkChunk]

theorem headerOk_done (msgId : String) : headerOk msgId OutEvent.done = true := rfl

theorem handleQwenChunk_all (msgId : String) (s : TState) (j : JVal) :
    ((handleQwenChunk msgId s j).2).all (headerOk msgId) = true := by
  unfold handleQwenChunk
  repeat' split
  all_goals try rfl
  all_goals simp only [List.all_cons, List.all_nil, Bool.and_true,
    Bool.true_and, headerOk_mkChunk, headerOk_done]

theorem processDataStr_all (msgId : String) (s : TState) (d : String) :
    ((processDataStr msgId s d).2).all (headerOk msgId) = true := by
  unfold processDataStr
  repeat' split
  all_goals try rfl
  all_goals simp only [List.all_cons, List.all_nil, Bool.and_true,
    Bool.true_and, headerOk_mkChunk, headerOk_done, handleQwenChunk_all]

theorem processLine_all (msgId : String) (s : TState) (l : String) :
    ((processLine msgId s l).2).all (headerOk msgId) = true := by
  unfold processLine
  split
  all_goals try rfl
  all_goals simp only [List.all_nil, processDataStr_all]

theorem processLinesAux_all (msgId : String) :
    ∀ (ls : List String) (s : TState),
    ((processLinesAux msgId s ls).2).all (headerOk msgId) = true := by
  intro ls
  induction ls with
  | nil => intro s; simp [processLinesAux]
  | cons l rest ih =>
    intro s
    simp only [processLinesAux, List.all_append, processLine_all, ih,
      Bool.and_self]

theorem transformStep_all (msgId : String) (s : TState) (c : String) :
    ((transformStep msgId s c).2).all (headerOk msgId) = true := by
  simp only [transformStep]
  repeat' split
  all_goals try rfl
  all_goals simp only [List.all_cons, List.all_nil, Bool.and_true,
    Bool.true_and, headerOk_mkChunk, headerOk_done, processLinesAux_all]

theorem processChunks_all (msgId : String) :
    ∀ (cs : List String) (s : TState),
    ((processChunks msgId s cs).2).all (headerOk msgId) = true := by
  intro cs
  induction cs with
  | nil => intro s; simp [processChunks]
  | cons c rest ih =>
    intro s
    simp only [processChunks, List.all_append, transformStep_all, ih,
      Bool.and_self]

theorem flushStep_all (msgId : String) (s : TState) :
    ((flushStep msgId s).all (headerOk msgId)) = true := by
  unfold flushStep
  repeat' split
  all_goals try rfl
  all_goals simp only [List.all_append, List.all_cons, List.all_nil,
    Bool.and_true, Bool.true_and, Bool.and_self, headerOk_mkChunk,
    headerOk_done, List.nil_append, List.append_nil]

/-- C10: within one stream-translation instance, every output frame is
either the literal terminal marker or a JSON chunk whose id is chatcmpl-
followed by the instance's fixed message identifier, whose object is
chat.completion.chunk and whose model is qwen-proxy — for every input
stream whatsoever. (The output type of the embedding has exactly these two
shapes: every enqueue site of the script builds one of them.) -/
theorem C10_chunkShape (msgId : String) (chunks : List String) :
    ((runTransform msgId chunks).all (headerOk msgId)) = true := by
  unfold runTransform
  simp [List.all_append, processChunks_all, flushStep_all]

end QP

namespace QP

set_option maxRecDepth 8000

theorem strStartsWith_ne_empty {u : String}
    (hu : strStartsWith u "https://" = true) : u ≠ "" := by
  intro h
  rw [h] at hu
  exact absurd hu (by decide)

theorem wrapUrl_ne_empty (u : String) : ¬"![Image](" ++ u ++ ")" = "" := by
  intro h
  have hd := congrArg String.data h
  simp [String.data_append] at hd

theorem wrapUrl_inj {a b : String} (h : wrapUrl a = wrapUrl b) : a = b := by
  have hd := congrArg String.data h
  simp only [wrapUrl, String.data_append] at hd
  exact String.ext (List.append_cancel_left (List.append_cancel_right hd))

theorem runFrames_cons (msgId : String) (s : TState) (f : JVal) (fs : List JVal) :
    (runFrames msgId s (f :: fs)).2 =
      (handleQwenChunk msgId s f).2 ++
        (runFrames msgId (handleQwenChunk msgId s f).1 fs).2 := rfl

/-- A fresh asset URL in an image_gen frame: recorded in the sent set, its
markdown wrapping emitted once (with the stop reason when the frame also
carries the finished status). -/
theorem handle_imageGen_new (msgId : String) (s : TState) (u st : String)
    (hu : strStartsWith u "https://" = true)
    (hc : u ∉ s.sentImageUrls) :
    handleQwenChunk msgId s (imageGenFrame u st) =
      ({ s with
          imageGenPhaseStarted := true,
          sentImageUrls := s.sentImageUrls ++ [u],
          lastImageUrl := some u,
          imageGenPhaseFinished :=
            if st = "finished" then true else s.imageGenPhaseFinished,
          chunkCount := s.chunkCount + 1 },
       [mkChunk msgId (wrapUrl u)
          (if st = "finished" then some "stop" else none)]) := by
  have hne : u ≠ "" := strStartsWith_ne_empty hu
  by_cases hst : st = "finished" <;>
    simp [handleQwenChunk, extractContent, imageGenFrame, isSuccessFalse,
      strFieldIs, JVal.getField, contentOf, jsOr, JVal.truthy, dedupImage,
      setAdd, hu, hc, hne, hst, wrapUrl, wrapUrl_ne_empty]

/-- An already-seen asset URL in an image_gen frame: its content collapses
to the empty delta, and nothing is forwarded at all unless the frame also
signals completion, in which case a single empty delta with the stop
reason goes out. -/
theorem handle_imageGen_seen (msgId : String) (s : TState) (u st : String)
    (hu : strStartsWith u "https://" = true)
    (hcon : u ∈ s.sentImageUrls) :
    handleQwenChunk msgId s (imageGenFrame u st) =
      (if st = "finished" then
         { s with imageGenPhaseStarted := true, imageGenPhaseFinished := true,
                  chunkCount := s.chunkCount + 1 }
       else { s with imageGenPhaseStarted := true },
       if st = "finished" then [mkChunk msgId "" (some "stop")] else []) := by
  have hne : u ≠ "" := strStartsWith_ne_empty hu
  by_cases hst : st = "finished" <;>
    simp [handleQwenChunk, extractContent, imageGenFrame, isSuccessFalse,
      strFieldIs, JVal.getField, contentOf, jsOr, JVal.truthy, dedupImage,
      setAdd, hu, hcon, hne, hst]

theorem countWrap_append (u : String) (o1 o2 : List OutEvent) :
    countWrap u (o1 ++ o2) = countWrap u o1 + countWrap u o2 := by
  simp [countWrap, List.countP_append]

theorem countWrap_single_wrap (msgId u u' : String) (f : Option String) :
    countWrap u [mkChunk msgId (wrapUrl u') f] = if u' = u then 1 else 0 := by
  simp only [countWrap, mkChunk, List.countP_cons, List.countP_nil]
  by_cases h : u' = u
  · subst h
    simp
  · have hb : (wrapUrl u' == wrapUrl u) = false := by
      rw [beq_eq_false_iff_ne]
      intro hh
      exact h (wrapUrl_inj hh)
    simp [hb, h]

theorem countWrap_empty_content (msgId u : String) (f : Option String) :
    countWrap u [mkChunk msgId "" f] = 0 := by
  simp only [countWrap, mkChunk, List.countP_cons, List.countP_nil]
  have hb : (("" : String) == wrapUrl u) = false := by
    rw [beq_eq_false_iff_ne]
    exact fun hh => wrapUrl_ne_empty u hh.symm
  simp [hb]

/-- The deduplication invariant: over any run of image_gen asset frames,
the markdown delta of a given URL is emitted at most once, and never at
all when the URL is already in the sent set. -/
theorem dedup_bound (msgId u : String) :
    ∀ (specs : List (String × String)) (s : TState),
    specs.all (fun p => strStartsWith p.1 "https://") = true →
    countWrap u
        ((runFrames msgId s (specs.map fun p => imageGenFrame p.1 p.2)).2) +
      (if u ∈ s.sentImageUrls then 1 else 0) ≤ 1 := by
  intro specs
  induction specs with
  | nil =>
    intro s _
    simp only [List.map_nil, runFrames, countWrap, List.countP_nil]
    split <;> omega
  | cons p rest ih =>
    intro s hall
    obtain ⟨u', st⟩ := p
    simp only [List.all_cons, Bool.and_eq_true] at hall
    obtain ⟨hu', hall'⟩ := hall
    simp only [List.map_cons, runFrames_cons, countWrap_append]
    by_cases hcon : u' ∈ s.sentImageUrls
    · rw [handle_imageGen_seen msgId s u' st hu' hcon]
      simp only []
      have hc1 : countWrap u
          (if st = "finished" then [mkChunk msgId "" (some "stop")] else []) = 0 := by
        split
        · exact countWrap_empty_content msgId u (some "stop")
        · rfl
      have hS1 : ((if st = "finished" then
            { s with imageGenPhaseStarted := true, imageGenPhaseFinished := true,
                     chunkCount := s.chunkCount + 1 }
          else { s with imageGenPhaseStarted := true } : TState)).sentImageUrls =
          s.sentImageUrls := by
        split <;> rfl
      have hIH := ih (if st = "finished" then
          { s with imageGenPhaseStarted := true, imageGenPhaseFinished := true,
                   chunkCount := s.chunkCount + 1 }
        else { s with imageGenPhaseStarted := true }) hall'
      rw [hS1] at hIH
      omega
    · rw [handle_imageGen_new msgId s u' st hu' hcon]
      simp only []
      rw [countWrap_single_wrap]
      by_cases huu : u' = u
      · subst huu
        have hIH := ih { s with
            imageGenPhaseStarted := true,
            sentImageUrls := s.sentImageUrls ++ [u'],
            lastImageUrl := some u',
            imageGenPhaseFinished :=
              if st = "finished" then true else s.imageGenPhaseFinished,
            chunkCount := s.chunkCount + 1 } hall'
        have hmem : u' ∈ s.sentImageUrls ++ [u'] := by simp
        rw [if_pos hmem] at hIH
        rw [if_neg hcon, if_pos rfl]
        omega
      · have hIH := ih { s with
            imageGenPhaseStarted := true,
            sentImageUrls := s.sentImageUrls ++ [u'],
            lastImageUrl := some u',
            imageGenPhaseFinished :=
              if st = "finished" then true else s.imageGenPhaseFinished,
            chunkCount := s.chunkCount + 1 } hall'
        have hmem : (u ∈ s.sentImageUrls ++ [u']) ↔ u ∈ s.sentImageUrls := by
          simp [List.mem_append]
          intro h
          exact absurd h.symm huu
        rw [if_congr hmem rfl rfl] at hIH
        rw [if_neg huu]
        omega

/-- C2: within one translation instance, over image_gen asset frames, (i)
the same URL arriving three times produces exactly one markdown delta and
nothing for the later occurrences, (ii) a frame carrying only an
already-seen URL is dropped entirely — no empty delta — unless it also
signals completion, in which case a single empty delta with the stop
reason goes out, and (iii) in general the markdown delta of any URL is
emitted at most once, and never once the URL is in the sent set. -/
theorem C2_assetDedup :
    (∀ msgId u, strStartsWith u "https://" = true →
      (runFrames msgId initState
        [imageGenFrame u "typing", imageGenFrame u "typing",
         imageGenFrame u "typing"]).2 = [mkChunk msgId (wrapUrl u) none]) ∧
    (∀ msgId (s : TState) u, strStartsWith u "https://" = true →
      u ∈ s.sentImageUrls →
      (handleQwenChunk msgId s (imageGenFrame u "typing")).2 = [] ∧
      (handleQwenChunk msgId s (imageGenFrame u "finished")).2 =
        [mkChunk msgId "" (some "stop")]) ∧
    (∀ msgId u (s : TState) (specs : List (String × String)),
      specs.all (fun p => strStartsWith p.1 "https://") = true →
      countWrap u
          ((runFrames msgId s (specs.map fun p => imageGenFrame p.1 p.2)).2) +
        (if u ∈ s.sentImageUrls then 1 else 0) ≤ 1) := by
  refine ⟨?_, ?_, fun msgId u s specs hall => dedup_bound msgId u specs s hall⟩
  · intro msgId u hu
    have h0 : u ∉ initState.sentImageUrls := by simp [initState]
    rw [runFrames_cons, handle_imageGen_new msgId initState u "typing" hu h0]
    rw [runFrames_cons, handle_imageGen_seen msgId _ u "typing" hu (by simp)]
    rw [runFrames_cons, handle_imageGen_seen msgId _ u "typing" hu (by simp)]
    simp [runFrames]
  · intro msgId s u hu hin
    constructor
    · rw [handle_imageGen_seen msgId s u "typing" hu hin]
      simp
    · rw [handle_imageGen_seen msgId s u "finished" hu hin]
      simp

theorem C2_assetDedup_witness :
    strStartsWith "https://u" "https://" = true ∧
    (runFrames "m" initState
      [imageGenFrame "https://u" "typing", imageGenFrame "https://u" "typing",
       imageGenFrame "https://u" "typing"]).2 =
      [mkChunk "m" (wrapUrl "https://u") none] ∧
    countWrap "https://u"
        ((runFrames "m" initState
          ([("https://u", "typing"), ("https://u", "typing")].map
            fun p => imageGenFrame p.1 p.2)).2) +
      (if "https://u" ∈ initState.sentImageUrls then 1 else 0) ≤ 1 := by
  refine ⟨by decide, C2_assetDedup.1 "m" "https://u" (by decide), ?_⟩
  exact C2_assetDedup.2.2 "m" "https://u" initState
    [("https://u", "typing"), ("https://u", "typing")] (by decide)

end QP

namespace QP

set_option maxRecDepth 8000

/-- Occurrence of a pattern implies occurrence of any prefix of it. -/
theorem containsSubList_mono {p q : List Char} (hpq : p <+: q) :
    ∀ l, containsSubList q l = true → containsSubList p l = true := by
  intro l
  induction l with
  | nil =>
    intro h
    simp only [containsSubList, List.isEmpty_iff] at h ⊢
    subst h
    simpa using List.prefix_nil.mp hpq
  | cons c cs ih =>
    simp only [containsSubList, Bool.or_eq_true]
    rintro (h | h)
    · left
      rw [List.isPrefixOf_iff_prefix] at h ⊢
      exact hpq.trans h
    · right
      exact ih h

/-- C4: isChatType of the chat middleware (second document of
src/Dockerfile) is total and deterministic with range t2t, search,
image_edit, t2i, t2v, deep_research; qwen-max-image-edit maps to
image_edit, qwen-max-image to t2i, and qwen-max-thinking to t2t with
thinking enabled; the image-edit pattern is tested before the broader
-image pattern, and that order matters: every name containing
-image-edit also contains -image, yet (absent -search) classifies as
image_edit. -/
theorem C4_isChatType :
    (∀ model, isChatType model = "t2t" ∨ isChatType model = "search" ∨
      isChatType model = "image_edit" ∨ isChatType model = "t2i" ∨
      isChatType model = "t2v" ∨ isChatType model = "deep_research") ∧
    isChatType "qwen-max-image-edit" = "image_edit" ∧
    isChatType "qwen-max-image" = "t2i" ∧
    isChatType "qwen-max-thinking" = "t2t" ∧
    (isThinkingEnabled "qwen-max-thinking" false none).getField
      "thinking_enabled" = some (.bool true) ∧
    (∀ model, strIncludes model "-image-edit" = true →
      strIncludes model "-image" = true) ∧
    (∀ model, strIncludes model "-search" = false →
      strIncludes model "-image-edit" = true →
      isChatType model = "image_edit") := by
  refine ⟨?_, by decide, by decide, by decide, rfl, ?_, ?_⟩
  · intro model
    unfold isChatType
    repeat' split
    all_goals simp
  · intro model h
    have hpre : ("-image".data) <+: ("-image-edit".data) := ⟨"-edit".data, rfl⟩
    exact containsSubList_mono hpre model.data h
  · intro model hs he
    have hne : model ≠ "" := by
      intro h
      rw [h] at he
      exact absurd he (by decide)
    simp [isChatType, hne, hs, he]

theorem C4_isChatType_witness :
    strIncludes "qwen-max-image-edit" "-search" = false ∧
    strIncludes "qwen-max-image-edit" "-image-edit" = true ∧
    strIncludes "qwen-max-image-edit" "-image" = true ∧
    isChatType "qwen-max-image-edit" = "image_edit" :=
  ⟨by decide, by decide,
   C4_isChatType.2.2.2.2.2.1 "qwen-max-image-edit" (by decide),
   C4_isChatType.2.2.2.2.2.2 "qwen-max-image-edit" (by decide) (by decide)⟩

/-- C5: isThinkingEnabled of the chat middleware is the claimed
resolveThinking. At the claim's examples: ("qwen-max", false, 50000)
yields the base config with thinking disabled and no budget override
field (50000 fails the strict 38912 bound; the default thinking_budget
81920 stays); ("qwen-max-thinking", false, 1000) yields thinking enabled
with budget 1000. In general (for a non-empty model name) thinking is
enabled exactly when the model carries -thinking or the explicit flag is
set, and a budget override is sent exactly when the explicit budget is
present, positive and strictly below 38912. -/
theorem C5_resolveThinking :
    isThinkingEnabled "qwen-max" false (some 50000) =
      .obj [("output_schema", .str "phase"), ("thinking_enabled", .bool false),
            ("thinking_budget", .num 81920)] ∧
    (isThinkingEnabled "qwen-max" false (some 50000)).getField "budget" =
      none ∧
    isThinkingEnabled "qwen-max-thinking" false (some 1000) =
      .obj [("output_schema", .str "phase"), ("thinking_enabled", .bool true),
            ("thinking_budget", .num 81920), ("budget", .num 1000)] ∧
    (isThinkingEnabled "qwen-max-thinking" false (some 1000)).getField
      "budget" = some (.num 1000) ∧
    (∀ model flag b, model ≠ "" →
      (isThinkingEnabled model flag b).getField "thinking_enabled" =
        some (.bool (strIncludes model "-thinking" || flag))) ∧
    (∀ model flag (b : Int), 0 < b → b < 38912 → model ≠ "" →
      (isThinkingEnabled model flag (some b)).getField "budget" =
        some (.num b)) ∧
    (∀ model flag (b : Int), ¬(0 < b ∧ b < 38912) →
      (isThinkingEnabled model flag (some b)).getField "budget" = none) ∧
    (∀ model flag, (isThinkingEnabled model flag none).getField "budget" =
      none) := by
  refine ⟨rfl, rfl, rfl, rfl, ?_, ?_, ?_, ?_⟩
  · intro model flag b hm
    rcases b with _ | b
    · simp [isThinkingEnabled, hm, JVal.getField]
    · by_cases hb : b ≠ 0 ∧ 0 < b ∧ b < 38912 <;>
        simp [isThinkingEnabled, hm, hb, JVal.getField]
  · intro model flag b hb1 hb2 hm
    have hb : b ≠ 0 ∧ 0 < b ∧ b < 38912 := ⟨by omega, hb1, hb2⟩
    simp [isThinkingEnabled, hm, hb, JVal.getField]
  · intro model flag b hb
    have hb' : ¬(b ≠ 0 ∧ 0 < b ∧ b < 38912) := by omega
    by_cases hm : model = "" <;>
      simp [isThinkingEnabled, hm, hb', JVal.getField]
  · intro model flag
    by_cases hm : model = "" <;> simp [isThinkingEnabled, hm, JVal.getField]

theorem C5_resolveThinking_witness :
    ("qwen-max-thinking" : String) ≠ "" ∧
    (isThinkingEnabled "qwen-max-thinking" false (some 1000)).getField
      "thinking_enabled" =
      some (.bool (strIncludes "qwen-max-thinking" "-thinking" || false)) ∧
    (isThinkingEnabled "qwen-max-thinking" false (some 1000)).getField
      "budget" = some (.num 1000) ∧
    (isThinkingEnabled "qwen-max" false (some 50000)).getField "budget" =
      none :=
  ⟨by decide,
   C5_resolveThinking.2.2.2.2.1 "qwen-max-thinking" false (some 1000)
     (by decide),
   C5_resolveThinking.2.2.2.2.2.1 "qwen-max-thinking" false 1000
     (by decide) (by decide) (by decide),
   C5_resolveThinking.2.2.2.2.2.2.1 "qwen-max" false 50000 (by decide)⟩

/-- C3: the content-addressed cache of parserMessages. For any
fingerprint function and the claim's input — the same inline image twice
— one run performs exactly one upload and both occurrences resolve to the
same public URL; a second run (a later request) over the same image,
starting from the cache the first run left, performs no upload at all and
still resolves to that URL; and in general an image_url item whose
payload's fingerprint is already cached is rewritten to the cached URL
with no upload call and no state change beyond the rewriting. -/
theorem C3_cachedUpload :
    (∀ sha : String → String,
      (mwRun sha uplOk mwInit mwDupMsgs).uploads = ["AAAA"] ∧
      (mwRun sha uplOk mwInit mwDupMsgs).images =
        ["https://cdn.example/img.png", "https://cdn.example/img.png"]) ∧
    (∀ sha : String → String,
      (mwRun sha uplOk
        { mwInit with cache := (mwRun sha uplOk mwInit mwDupMsgs).cache }
        mwDupMsgs).uploads = [] ∧
      (mwRun sha uplOk
        { mwInit with cache := (mwRun sha uplOk mwInit mwDupMsgs).cache }
        mwDupMsgs).images =
        ["https://cdn.example/img.png", "https://cdn.example/img.png"]) ∧
    (∀ (sha : String → String) (upl : Nat → Option String) (st : MwSt)
      (u url : String) (nc : Nat), u ≠ "" →
      lookupCache st.cache (sha (stripDataHeader u)) = some url →
      mwProcessItem sha upl st nc (.imageUrl u) =
        ({ st with images := st.images ++ [url] }, nc + 1)) := by
  have hstrip : stripDataHeader "data:image/png;base64,AAAA" = "AAAA" := by
    decide
  have hne : ("data:image/png;base64,AAAA" : String) ≠ "" := by decide
  have hrun : ∀ sha : String → String,
      mwRun sha uplOk mwInit mwDupMsgs =
        { cache := [(sha "AAAA", "https://cdn.example/img.png")],
          uploads := ["AAAA"],
          images := ["https://cdn.example/img.png",
                     "https://cdn.example/img.png"],
          calls := 1 } := by
    intro sha
    have hhit : lookupCache [(sha "AAAA", "https://cdn.example/img.png")]
        (sha "AAAA") = some "https://cdn.example/img.png" := by
      simp [lookupCache]
    simp [mwRun, mwProcessMessage, mwProcessItems, mwProcessItem, mwDupMsgs,
      mwInit, uplOk, hstrip, hne, hhit, lookupCache]
  refine ⟨?_, ?_, ?_⟩
  · intro sha
    rw [hrun]
    exact ⟨rfl, rfl⟩
  · intro sha
    rw [hrun]
    have hhit : lookupCache [(sha "AAAA", "https://cdn.example/img.png")]
        (sha "AAAA") = some "https://cdn.example/img.png" := by
      simp [lookupCache]
    constructor <;>
      simp [mwRun, mwProcessMessage, mwProcessItems, mwProcessItem,
        mwDupMsgs, mwInit, uplOk, hstrip, hne, hhit]
  · intro sha upl st u url nc hne' hhit
    simp [mwProcessItem, hne', hhit]

theorem C3_cachedUpload_witness :
    ("data:image/png;base64,AAAA" : String) ≠ "" ∧
    lookupCache [("AAAA", "https://kept.example/i.png")]
      ((fun s => s) (stripDataHeader "data:image/png;base64,AAAA")) =
      some "https://kept.example/i.png" ∧
    mwProcessItem (fun s => s) uplOk
      { cache := [("AAAA", "https://kept.example/i.png")], uploads := [],
        images := [], calls := 0 } 0
      (.imageUrl "data:image/png;base64,AAAA") =
      ({ cache := [("AAAA", "https://kept.example/i.png")], uploads := [],
         images := ["https://kept.example/i.png"], calls := 0 }, 1) :=
  ⟨by decide, by decide,
   C3_cachedUpload.2.2 (fun s => s) uplOk
     { cache := [("AAAA", "https://kept.example/i.png")], uploads := [],
       images := [], calls := 0 }
     "data:image/png;base64,AAAA" "https://kept.example/i.png" 0
     (by decide) (by decide)⟩

end QP
